import Mathlib

/-!
Verification of `generate_icon.py` (MicOn repository).

The script is a linear batch: it ensures an output directory exists, then for
each size in a fixed list it allocates a transparent RGBA buffer, rasterizes a
green filled ellipse inset by a 5% margin, saves the buffer as a PNG file, and
prints a progress line; a final completion line follows the loop.

Embedding choices:
* Python floats are modelled by `ℚ` (the script only multiplies a size by
  `0.05` and subtracts; no rounding behaviour of binary floats is relied on).
* The Pillow calls `Image.new`, `ImageDraw.ellipse` and `img.save` are
  modelled at the pixel level: a pixel is painted by the ellipse fill iff its
  centre `(x + 1/2, y + 1/2)` lies inside the closed ellipse inscribed in the
  given bounding box, and an RGB fill colour drawn onto an RGBA image is
  promoted to alpha 255, as Pillow does.
* Filesystem and console effects are modelled by explicit state passing over
  an `FS` record (directories, files as an association list, console lines,
  and an event trace recording operation order), with an `Env` fault oracle
  deciding which operations raise an `OSError`; an uncaught error aborts the
  run carrying the state at the point of failure, mirroring an unhandled
  Python exception.
-/

namespace MicOn

/-- An RGBA pixel: four channel bytes. -/
structure RGBA where
  r : ℕ
  g : ℕ
  b : ℕ
  a : ℕ
deriving DecidableEq, Repr

/-- An in-memory Pillow image: mode string, dimensions, and pixel function. -/
structure Image where
  mode : String
  width : ℕ
  height : ℕ
  px : ℕ → ℕ → RGBA

/-- `icon_dir = "MicOn/Assets.xcassets/AppIcon.appiconset"` (line 6). -/
def icon_dir : String := "MicOn/Assets.xcassets/AppIcon.appiconset"

/-- `sizes = [16, 32, 64, 128, 256, 512, 1024]` (line 10). -/
def sizes : List ℕ := [16, 32, 64, 128, 256, 512, 1024]

/-- `green_color = (52, 199, 89)` (line 13): an RGB triple, no alpha. -/
def green_color : ℕ × ℕ × ℕ := (52, 199, 89)

/-- The fully transparent pixel `(0, 0, 0, 0)`. -/
def transparent : RGBA := ⟨0, 0, 0, 0⟩

/-- `Image.new('RGBA', (size, size), (0, 0, 0, 0))` (line 17): a constant
buffer of the given colour. -/
def Image.new (mode : String) (dims : ℕ × ℕ) (color : RGBA) : Image :=
  ⟨mode, dims.1, dims.2, fun _ _ => color⟩

/-- `margin = size * 0.05` (line 22), with the float literal `0.05` read as
the rational `5/100`; no rounding is applied. -/
def margin (size : ℕ) : ℚ := (size : ℚ) * (5 / 100)

/-- An ellipse bounding box `[x0, y0, x1, y1]` with fractional coordinates,
as passed to `draw.ellipse`. -/
structure BBox where
  x0 : ℚ
  y0 : ℚ
  x1 : ℚ
  y1 : ℚ

/-- Pixel-coverage model of Pillow's ellipse rasterizer: pixel `(x, y)` is
painted iff its centre `(x + 1/2, y + 1/2)` lies in the closed ellipse
inscribed in the bounding box.  (The cross-multiplied form avoids division.) -/
def inEllipse (b : BBox) (x y : ℕ) : Bool :=
  decide (((b.y1 - b.y0) / 2) ^ 2 * ((x : ℚ) + 1 / 2 - (b.x0 + b.x1) / 2) ^ 2
      + ((b.x1 - b.x0) / 2) ^ 2 * ((y : ℚ) + 1 / 2 - (b.y0 + b.y1) / 2) ^ 2
    ≤ (((b.x1 - b.x0) / 2) * ((b.y1 - b.y0) / 2)) ^ 2)

/-- The bounding box shrunk by `d` on every side. -/
def insetBox (b : BBox) (d : ℚ) : BBox :=
  ⟨b.x0 + d, b.y0 + d, b.x1 - d, b.y1 - d⟩

/-- One-pixel-wide outline ring of the ellipse: covered by the ellipse but not
by the ellipse inset by one pixel.  (Never exercised by the script, which
passes `outline=None`.) -/
def onOutline (b : BBox) (x y : ℕ) : Bool :=
  inEllipse b x y && !(inEllipse (insetBox b 1) x y)

/-- Pillow promotes an RGB triple to RGBA with opaque alpha (255) when it is
drawn onto an `RGBA`-mode image. -/
def fillRGBA (c : ℕ × ℕ × ℕ) : RGBA := ⟨c.1, c.2.1, c.2.2, 255⟩

/-- Model of `draw.ellipse(bbox, fill=…, outline=…)` (lines 23–27): fill the
covered pixels with the fill colour (when given), then draw the outline ring
over them (when given); other pixels keep their previous colour. -/
def Image.ellipse (img : Image) (b : BBox)
    (fill outline : Option (ℕ × ℕ × ℕ)) : Image :=
  { img with px := fun x y =>
      match outline, fill with
      | some oc, some fc =>
          if onOutline b x y then fillRGBA oc
          else if inEllipse b x y then fillRGBA fc
          else img.px x y
      | some oc, none =>
          if onOutline b x y then fillRGBA oc else img.px x y
      | none, some fc =>
          if inEllipse b x y then fillRGBA fc else img.px x y
      | none, none => img.px x y }

/-- The bounding box `[margin, margin, size - margin, size - margin]`
passed to `draw.ellipse` (line 24). -/
def ellipseBox (size : ℕ) : BBox :=
  ⟨margin size, margin size, (size : ℚ) - margin size, (size : ℚ) - margin size⟩

/-- The loop body of lines 17–27 up to the save: new transparent RGBA buffer
of dimensions `size × size`, then the green ellipse with 5% margin, filled
with `green_color` and `outline=None`. -/
def renderIcon (size : ℕ) : Image :=
  let img := Image.new "RGBA" (size, size) ⟨0, 0, 0, 0⟩
  Image.ellipse img (ellipseBox size) (some green_color) none

/-- `filename = f"{icon_dir}/icon_{size}.png"` (line 30). -/
def iconPath (size : ℕ) : String :=
  icon_dir ++ "/icon_" ++ toString size ++ ".png"

/-- The progress line `f"Created {filename}"` (line 32). -/
def createdLine (size : ℕ) : String := "Created " ++ iconPath size

/-- The completion line printed after the loop (line 34). -/
def doneLine : String := "All icons generated successfully!"

/-- A file on disk, as the model keeps it: the encoding format passed to
`img.save` together with the saved image. -/
structure SavedFile where
  format : String
  image : Image

/-- An observable effect, recorded in order of occurrence. -/
inductive Event where
  | mkdir (dir : String)
  | write (path : String)
  | print (line : String)
deriving DecidableEq

/-- The world state the script acts on: directories, files (an association
list, most recent write first), console lines, and the event trace. -/
structure FS where
  dirs : List String
  files : List (String × SavedFile)
  console : List String
  trace : List Event

/-- The world before the script runs. -/
def emptyFS : FS := ⟨[], [], [], []⟩

/-- The file currently stored at path `p`, if any. -/
def FS.lookup (fs : FS) (p : String) : Option SavedFile :=
  (fs.files.find? (fun e => e.1 == p)).map Prod.snd

/-- `os.makedirs(d, exist_ok=True)` (line 7): create the directory if absent,
succeed silently if present. -/
def FS.mkdirs (fs : FS) (d : String) : FS :=
  { fs with
    dirs := if d ∈ fs.dirs then fs.dirs else d :: fs.dirs
    trace := fs.trace ++ [Event.mkdir d] }

/-- `img.save(filename, 'PNG')` (line 31): store the file at the path,
shadowing (overwriting) any previous entry. -/
def FS.save (fs : FS) (p : String) (f : SavedFile) : FS :=
  { fs with
    files := (p, f) :: fs.files
    trace := fs.trace ++ [Event.write p] }

/-- `print(line)`: append one line to the console. -/
def FS.print (fs : FS) (line : String) : FS :=
  { fs with
    console := fs.console ++ [line]
    trace := fs.trace ++ [Event.print line] }

/-- Fault oracle: which filesystem operations raise an `OSError` (permissions,
disk full, …).  Rendering in memory cannot fail. -/
structure Env where
  mkdirFails : Bool
  writeFails : ℕ → Bool

/-- The fault-free environment of a nominal run. -/
def okEnv : Env := ⟨false, fun _ => false⟩

/-- One iteration of the `for size in sizes` loop (lines 15–32): render the
icon, save it as PNG, print the progress line.  A failing save raises,
leaving the state as it was (`Except.error` carries the state at the point
of the unhandled exception). -/
def processSize (env : Env) (fs : FS) (size : ℕ) : Except FS FS :=
  let img := renderIcon size
  if env.writeFails size then Except.error fs
  else Except.ok ((fs.save (iconPath size) ⟨"PNG", img⟩).print (createdLine size))

/-- The loop over the remaining sizes, followed by the completion line
(line 34).  An error propagates uncaught and aborts the rest. -/
def runFrom (env : Env) : FS → List ℕ → Except FS FS
  | fs, [] => Except.ok (fs.print doneLine)
  | fs, s :: rest =>
    match processSize env fs s with
    | Except.error e => Except.error e
    | Except.ok fs' => runFrom env fs' rest

/-- The whole script: `os.makedirs` once, then the loop over `sizes`, then
the completion line.  A failing `makedirs` aborts before anything else. -/
def run (env : Env) (fs : FS) : Except FS FS :=
  if env.mkdirFails then Except.error fs
  else runFrom env (fs.mkdirs icon_dir) sizes

/-- The state after successfully processing a list of sizes in order:
`processSize` folded over the list. -/
def applyAll (fs : FS) : List ℕ → FS
  | [] => fs
  | s :: rest =>
      applyAll ((fs.save (iconPath s) ⟨"PNG", renderIcon s⟩).print (createdLine s)) rest

/-- The events the loop body emits for a list of sizes, in order. -/
def loopTrace : List ℕ → List Event
  | [] => []
  | s :: rest => Event.write (iconPath s) :: Event.print (createdLine s) :: loopTrace rest

/-! ### Helper lemmas about the state operations -/

theorem FS.print_files (fs : FS) (line : String) : (fs.print line).files = fs.files := rfl

theorem FS.print_dirs (fs : FS) (line : String) : (fs.print line).dirs = fs.dirs := rfl

theorem FS.print_console (fs : FS) (line : String) :
    (fs.print line).console = fs.console ++ [line] := rfl

theorem FS.print_trace (fs : FS) (line : String) :
    (fs.print line).trace = fs.trace ++ [Event.print line] := rfl

theorem FS.mkdirs_files (fs : FS) (d : String) : (fs.mkdirs d).files = fs.files := rfl

theorem FS.mkdirs_console (fs : FS) (d : String) :
    (fs.mkdirs d).console = fs.console := rfl

theorem FS.mkdirs_trace (fs : FS) (d : String) :
    (fs.mkdirs d).trace = fs.trace ++ [Event.mkdir d] := rfl

theorem FS.lookup_print (fs : FS) (line p : String) :
    (fs.print line).lookup p = fs.lookup p := rfl

theorem FS.lookup_mkdirs (fs : FS) (d p : String) :
    (fs.mkdirs d).lookup p = fs.lookup p := rfl

theorem FS.lookup_save (fs : FS) (p : String) (f : SavedFile) (q : String) :
    (fs.save p f).lookup q = if p = q then some f else fs.lookup q := by
  by_cases h : p = q
  · subst h
    simp [FS.save, FS.lookup, List.find?]
  · have hb : (p == q) = false := by simpa using h
    simp [FS.save, FS.lookup, List.find?, hb, h]

theorem FS.lookup_mem_keys {fs : FS} {p : String} {f : SavedFile}
    (h : fs.lookup p = some f) : p ∈ fs.files.map Prod.fst := by
  unfold FS.lookup at h
  rcases Option.map_eq_some'.mp h with ⟨e, he, hsnd⟩
  have hmem := List.mem_of_find?_eq_some he
  have hkey := List.find?_some he
  have : e.1 = p := by simpa using hkey
  subst this
  exact List.mem_map_of_mem Prod.fst hmem

theorem applyAll_files (l : List ℕ) : ∀ fs : FS,
    (applyAll fs l).files
      = (l.map fun s => (iconPath s, (⟨"PNG", renderIcon s⟩ : SavedFile))).reverse
        ++ fs.files := by
  induction l with
  | nil => intro fs; simp [applyAll]
  | cons a t ih =>
      intro fs
      simp [applyAll, ih, FS.save, FS.print]

theorem applyAll_console (l : List ℕ) : ∀ fs : FS,
    (applyAll fs l).console = fs.console ++ l.map createdLine := by
  induction l with
  | nil => intro fs; simp [applyAll]
  | cons a t ih =>
      intro fs
      simp [applyAll, ih, FS.save, FS.print]

theorem applyAll_dirs (l : List ℕ) : ∀ fs : FS,
    (applyAll fs l).dirs = fs.dirs := by
  induction l with
  | nil => intro fs; simp [applyAll]
  | cons a t ih =>
      intro fs
      simp [applyAll, ih, FS.save, FS.print]

theorem applyAll_trace (l : List ℕ) : ∀ fs : FS,
    (applyAll fs l).trace = fs.trace ++ loopTrace l := by
  induction l with
  | nil => intro fs; simp [applyAll, loopTrace]
  | cons a t ih =>
      intro fs
      simp [applyAll, ih, FS.save, FS.print, loopTrace]

theorem lookup_applyAll_not_mem (l : List ℕ) : ∀ (fs : FS) (p : String),
    p ∉ l.map iconPath → (applyAll fs l).lookup p = fs.lookup p := by
  induction l with
  | nil => intro fs p _; rfl
  | cons a t ih =>
      intro fs p hp
      rw [List.map_cons, List.mem_cons, not_or] at hp
      rw [applyAll, ih _ _ hp.2, FS.lookup_print, FS.lookup_save,
        if_neg (fun h => hp.1 h.symm)]

theorem lookup_applyAll_mem (l : List ℕ) : ∀ (fs : FS) (s : ℕ),
    s ∈ l → (l.map iconPath).Nodup →
    (applyAll fs l).lookup (iconPath s) = some ⟨"PNG", renderIcon s⟩ := by
  induction l with
  | nil => intro fs s hs; exact absurd hs (List.not_mem_nil s)
  | cons a t ih =>
      intro fs s hs hnd
      rw [List.map_cons, List.nodup_cons] at hnd
      rcases List.mem_cons.mp hs with rfl | hst
      · rw [applyAll, lookup_applyAll_not_mem t _ _ hnd.1, FS.lookup_print,
          FS.lookup_save, if_pos rfl]
      · exact ih _ s hst hnd.2

theorem runFrom_ok (env : Env) (l : List ℕ) : ∀ fs : FS,
    (∀ s ∈ l, env.writeFails s = false) →
    runFrom env fs l = Except.ok ((applyAll fs l).print doneLine) := by
  induction l with
  | nil => intro fs _; rfl
  | cons a t ih =>
      intro fs h
      rw [runFrom, processSize]
      rw [h a (List.mem_cons_self a t), if_neg (by simp)]
      exact ih _ (fun s hs => h s (List.mem_cons_of_mem a hs))

theorem runFrom_error_split (env : Env) (pre : List ℕ) :
    ∀ (fs : FS) (bad : ℕ) (post : List ℕ),
    (∀ s ∈ pre, env.writeFails s = false) → env.writeFails bad = true →
    runFrom env fs (pre ++ bad :: post) = Except.error (applyAll fs pre) := by
  induction pre with
  | nil =>
      intro fs bad post _ hbad
      rw [List.nil_append, runFrom, processSize, if_pos (by simp [hbad])]
      rfl
  | cons a t ih =>
      intro fs bad post h hbad
      rw [List.cons_append, runFrom, processSize]
      rw [h a (List.mem_cons_self a t), if_neg (by simp)]
      rw [applyAll]
      exact ih _ bad post (fun s hs => h s (List.mem_cons_of_mem a hs)) hbad

theorem runFrom_error_inv (env : Env) (l : List ℕ) : ∀ (fs e : FS),
    runFrom env fs l = Except.error e → ∃ pre, e = applyAll fs pre := by
  induction l with
  | nil => intro fs e h; exact absurd h (by simp [runFrom])
  | cons a t ih =>
      intro fs e h
      rw [runFrom, processSize] at h
      by_cases hf : env.writeFails a = true
      · rw [if_pos (by simp [hf])] at h
        exact ⟨[], by simpa [applyAll] using (Except.error.injEq _ _).mp h.symm⟩
      · rw [if_neg (by simpa using hf)] at h
        rcases ih _ e h with ⟨pre, hpre⟩
        exact ⟨a :: pre, by simpa [applyAll] using hpre⟩

theorem run_okEnv (fs : FS) :
    run okEnv fs
      = Except.ok ((applyAll (fs.mkdirs icon_dir) sizes).print doneLine) := by
  rw [run, if_neg (by simp [okEnv])]
  exact runFrom_ok okEnv sizes _ (fun s _ => rfl)

theorem createdLine_ne_doneLine (s : ℕ) : createdLine s ≠ doneLine := by
  intro h
  have hlen := congrArg String.length h
  rw [createdLine, iconPath, String.length_append, String.length_append,
    String.length_append, String.length_append] at hlen
  have h1 : ("Created " : String).length = 8 := by decide
  have h2 : icon_dir.length = 40 := by decide
  have h3 : ("/icon_" : String).length = 6 := by decide
  have h4 : (".png" : String).length = 4 := by decide
  have h5 : doneLine.length = 33 := by decide
  omega

/-! ### The claims -/

/-- Claim C2: for every size, the margin is `size * 0.05` unrounded, and the
filled ellipse is rasterized inscribed in the bounding box
`[margin, margin, size - margin, size - margin]` with the configured fill
colour and no outline stroke: every pixel inside that ellipse gets the fill
colour and every other pixel keeps the transparent background. -/
theorem claim_C2 (size : ℕ) :
    margin size = (size : ℚ) * (5 / 100) ∧
    renderIcon size
      = Image.ellipse (Image.new "RGBA" (size, size) transparent)
          ⟨margin size, margin size, (size : ℚ) - margin size,
            (size : ℚ) - margin size⟩
          (some green_color) none ∧
    ∀ x y, (renderIcon size).px x y
      = if inEllipse (ellipseBox size) x y then fillRGBA green_color
        else transparent :=
  ⟨rfl, rfl, fun _ _ => rfl⟩

/-- Claim C9: the fill colour constant in the code is the 3-tuple RGB value
`(52, 199, 89)` with no alpha channel, yet every pixel covered by the
rasterized ellipse is fully opaque in the RGBA output: drawing an RGB fill
onto an RGBA image promotes it to alpha 255. -/
theorem claim_C9 (s x y : ℕ) (h : inEllipse (ellipseBox s) x y = true) :
    green_color = (52, 199, 89) ∧
    (renderIcon s).px x y = ⟨52, 199, 89, 255⟩ ∧
    ((renderIcon s).px x y).a = 255 := by
  have hpx : (renderIcon s).px x y
      = if inEllipse (ellipseBox s) x y then fillRGBA green_color
        else transparent := rfl
  rw [hpx, if_pos h]
  exact ⟨rfl, rfl, rfl⟩

/-- Witness for C9 at size 16, pixel (8, 8), which the ellipse covers. -/
theorem claim_C9_w :
    inEllipse (ellipseBox 16) 8 8 = true ∧
    (green_color = (52, 199, 89) ∧
      (renderIcon 16).px 8 8 = ⟨52, 199, 89, 255⟩ ∧
      ((renderIcon 16).px 8 8).a = 255) :=
  ⟨by norm_num [inEllipse, ellipseBox, margin],
   claim_C9 16 8 8 (by norm_num [inEllipse, ellipseBox, margin])⟩

/-- Claim C4: for every configured size, the centre pixel of the rendered
image equals the fill colour as applied, the RGBA value `(52, 199, 89, 255)`,
whose four channel bytes all lie in `[0, 255]`. -/
theorem claim_C4 : ∀ s ∈ sizes,
    (renderIcon s).px (s / 2) (s / 2) = fillRGBA green_color ∧
    fillRGBA green_color = ⟨52, 199, 89, 255⟩ ∧
    (fillRGBA green_color).r ≤ 255 ∧ (fillRGBA green_color).g ≤ 255 ∧
    (fillRGBA green_color).b ≤ 255 ∧ (fillRGBA green_color).a ≤ 255 := by
  intro s hs
  simp only [sizes] at hs
  fin_cases hs <;>
    refine ⟨?_, rfl, by decide, by decide, by decide, by decide⟩ <;>
    norm_num [renderIcon, Image.ellipse, Image.new, inEllipse, ellipseBox,
      margin, green_color, fillRGBA]

/-- Witness for C4 at size 16 (centre pixel (8, 8)). -/
theorem claim_C4_w :
    (16 : ℕ) ∈ sizes ∧
    ((renderIcon 16).px (16 / 2) (16 / 2) = fillRGBA green_color ∧
      fillRGBA green_color = ⟨52, 199, 89, 255⟩ ∧
      (fillRGBA green_color).r ≤ 255 ∧ (fillRGBA green_color).g ≤ 255 ∧
      (fillRGBA green_color).b ≤ 255 ∧ (fillRGBA green_color).a ≤ 255) :=
  ⟨by decide, claim_C4 16 (by decide)⟩

/-- Claim C1: on a fault-free run from the empty world, for every size in the
configured sequence exactly one file is stored at
`MicOn/Assets.xcassets/AppIcon.appiconset/icon_<size>.png`, encoded as PNG,
in RGBA mode, with pixel dimensions exactly `size × size`; and every stored
file is at one of the configured sizes' paths (no file for unlisted sizes). -/
theorem claim_C1 : ∀ s ∈ sizes, ∃ fs',
    run okEnv emptyFS = Except.ok fs' ∧
    fs'.lookup (iconPath s) = some ⟨"PNG", renderIcon s⟩ ∧
    iconPath s = icon_dir ++ "/icon_" ++ toString s ++ ".png" ∧
    (renderIcon s).mode = "RGBA" ∧
    (renderIcon s).width = s ∧ (renderIcon s).height = s ∧
    (fs'.files.map Prod.fst).count (iconPath s) = 1 ∧
    ∀ p f, fs'.lookup p = some f → p ∈ sizes.map iconPath := by
  intro s hs
  have hf : (((applyAll (emptyFS.mkdirs icon_dir) sizes).print doneLine).files.map
      Prod.fst) = (sizes.map iconPath).reverse := by
    rw [FS.print_files, applyAll_files, FS.mkdirs_files]
    simp [emptyFS, List.map_reverse, List.map_map, Function.comp]
  refine ⟨_, run_okEnv emptyFS, ?_, rfl, rfl, rfl, rfl, ?_, ?_⟩
  · rw [FS.lookup_print]
    exact lookup_applyAll_mem sizes _ s hs (by decide)
  · rw [hf, List.count_reverse]
    exact List.count_eq_one_of_mem (by decide) (List.mem_map_of_mem iconPath hs)
  · intro p f hpf
    have hmem := FS.lookup_mem_keys hpf
    rw [hf, List.mem_reverse] at hmem
    exact hmem

/-- Witness for C1 at size 16. -/
theorem claim_C1_w :
    (16 : ℕ) ∈ sizes ∧
    (∃ fs', run okEnv emptyFS = Except.ok fs' ∧
      fs'.lookup (iconPath 16) = some ⟨"PNG", renderIcon 16⟩ ∧
      iconPath 16 = icon_dir ++ "/icon_" ++ toString (16 : ℕ) ++ ".png" ∧
      (renderIcon 16).mode = "RGBA" ∧
      (renderIcon 16).width = 16 ∧ (renderIcon 16).height = 16 ∧
      (fs'.files.map Prod.fst).count (iconPath 16) = 1 ∧
      ∀ p f, fs'.lookup p = some f → p ∈ sizes.map iconPath) :=
  ⟨by decide, claim_C1 16 (by decide)⟩

/-- Claim C3: if a filesystem error occurs at some size (directory creation
or file write failure), it is not caught and the run terminates: the state at
the abort has exactly the files of the earlier sizes written (with correct
contents), every path outside those is unchanged from the initial state (so
nothing was written for the failing or any subsequent size), and the console
holds only the earlier progress lines. -/
theorem claim_C3 (env : Env) (fs0 : FS) (pre post : List ℕ) (bad : ℕ)
    (hsplit : sizes = pre ++ bad :: post)
    (hmk : env.mkdirFails = false)
    (hpre : ∀ s ∈ pre, env.writeFails s = false)
    (hbad : env.writeFails bad = true) :
    ∃ fsE, run env fs0 = Except.error fsE ∧
      (∀ s ∈ pre, (pre.map iconPath).Nodup →
        fsE.lookup (iconPath s) = some ⟨"PNG", renderIcon s⟩) ∧
      (∀ p, p ∉ pre.map iconPath → fsE.lookup p = fs0.lookup p) ∧
      fsE.files.map Prod.fst = (pre.map iconPath).reverse ++ fs0.files.map Prod.fst ∧
      fsE.console = fs0.console ++ pre.map createdLine := by
  refine ⟨applyAll (fs0.mkdirs icon_dir) pre, ?_, ?_, ?_, ?_, ?_⟩
  · rw [run, if_neg (by simp [hmk]), hsplit]
    exact runFrom_error_split env pre _ bad post hpre hbad
  · intro s hs hnd
    exact lookup_applyAll_mem pre _ s hs hnd
  · intro p hp
    rw [lookup_applyAll_not_mem pre _ p hp, FS.lookup_mkdirs]
  · rw [applyAll_files, FS.mkdirs_files]
    simp [List.map_reverse, List.map_map, Function.comp]
  · rw [applyAll_console, FS.mkdirs_console]

/-- Witness for C3: writing `icon_64.png` fails; the run aborts with exactly
`icon_16.png` and `icon_32.png` written and their progress lines printed. -/
theorem claim_C3_w :
    sizes = [16, 32] ++ 64 :: [128, 256, 512, 1024] ∧
    ∃ fsE, run ⟨false, fun s => s == 64⟩ emptyFS = Except.error fsE ∧
      (∀ s ∈ [(16 : ℕ), 32], (([16, 32].map iconPath).Nodup) →
        fsE.lookup (iconPath s) = some ⟨"PNG", renderIcon s⟩) ∧
      (∀ p, p ∉ [(16 : ℕ), 32].map iconPath → fsE.lookup p = emptyFS.lookup p) ∧
      fsE.files.map Prod.fst
        = ([(16 : ℕ), 32].map iconPath).reverse ++ emptyFS.files.map Prod.fst ∧
      fsE.console = emptyFS.console ++ [(16 : ℕ), 32].map createdLine :=
  ⟨rfl, claim_C3 ⟨false, fun s => s == 64⟩ emptyFS [16, 32] [128, 256, 512, 1024] 64
    rfl rfl (by decide) (by decide)⟩

/-- Claim C5: the generator is deterministic — running it twice in a row with
the same configuration yields, for every configured size, the identical saved
file (the render of that size) both times. -/
theorem claim_C5 (fs0 fs1 fs2 : FS)
    (h1 : run okEnv fs0 = Except.ok fs1) (h2 : run okEnv fs1 = Except.ok fs2) :
    ∀ s ∈ sizes,
      fs1.lookup (iconPath s) = some ⟨"PNG", renderIcon s⟩ ∧
      fs2.lookup (iconPath s) = some ⟨"PNG", renderIcon s⟩ ∧
      fs1.lookup (iconPath s) = fs2.lookup (iconPath s) := by
  intro s hs
  have e1 : Except.ok (ε := FS) fs1
      = Except.ok ((applyAll (fs0.mkdirs icon_dir) sizes).print doneLine) :=
    h1.symm.trans (run_okEnv fs0)
  have e2 : Except.ok (ε := FS) fs2
      = Except.ok ((applyAll (fs1.mkdirs icon_dir) sizes).print doneLine) :=
    h2.symm.trans (run_okEnv fs1)
  injection e1 with e1
  injection e2 with e2
  subst e1
  subst e2
  rw [FS.lookup_print, FS.lookup_print,
    lookup_applyAll_mem sizes _ s hs (by decide),
    lookup_applyAll_mem sizes _ s hs (by decide)]
  exact ⟨rfl, rfl, rfl⟩

/-- Witness for C5: two consecutive fault-free runs from the empty world agree
on `icon_16.png`. -/
theorem claim_C5_w :
    ∃ fs1 fs2, run okEnv emptyFS = Except.ok fs1 ∧ run okEnv fs1 = Except.ok fs2 ∧
      (16 : ℕ) ∈ sizes ∧
      (fs1.lookup (iconPath 16) = some ⟨"PNG", renderIcon 16⟩ ∧
        fs2.lookup (iconPath 16) = some ⟨"PNG", renderIcon 16⟩ ∧
        fs1.lookup (iconPath 16) = fs2.lookup (iconPath 16)) :=
  ⟨_, _, run_okEnv emptyFS, run_okEnv _, by decide,
    claim_C5 emptyFS _ _ (run_okEnv emptyFS) (run_okEnv _) 16 (by decide)⟩

/-- Claim C6: for every configured size, the buffer is allocated with the
fully transparent colour at every pixel, and in the written output the four
corner pixels have alpha 0. -/
theorem claim_C6 : ∀ s ∈ sizes,
    (∀ x y, (Image.new "RGBA" (s, s) ⟨0, 0, 0, 0⟩).px x y = transparent) ∧
    ∃ fs', run okEnv emptyFS = Except.ok fs' ∧
      ∃ f, fs'.lookup (iconPath s) = some f ∧
        (f.image.px 0 0).a = 0 ∧ (f.image.px 0 (s - 1)).a = 0 ∧
        (f.image.px (s - 1) 0).a = 0 ∧ (f.image.px (s - 1) (s - 1)).a = 0 := by
  intro s hs
  refine ⟨fun x y => rfl,
    _, run_okEnv emptyFS, ⟨"PNG", renderIcon s⟩, ?_, ?_, ?_, ?_, ?_⟩
  · rw [FS.lookup_print]
    exact lookup_applyAll_mem sizes _ s hs (by decide)
  all_goals simp only [sizes] at hs
  all_goals fin_cases hs <;>
    norm_num [renderIcon, Image.ellipse, Image.new, inEllipse, ellipseBox,
      margin, transparent]

/-- Witness for C6 at size 16. -/
theorem claim_C6_w :
    (16 : ℕ) ∈ sizes ∧
    ((∀ x y, (Image.new "RGBA" (16, 16) ⟨0, 0, 0, 0⟩).px x y = transparent) ∧
      ∃ fs', run okEnv emptyFS = Except.ok fs' ∧
        ∃ f, fs'.lookup (iconPath 16) = some f ∧
          (f.image.px 0 0).a = 0 ∧ (f.image.px 0 (16 - 1)).a = 0 ∧
          (f.image.px (16 - 1) 0).a = 0 ∧ (f.image.px (16 - 1) (16 - 1)).a = 0) :=
  ⟨by decide, claim_C6 16 (by decide)⟩

/-- Claim C7: a fault-free run from a world where the output directory already
exists succeeds, leaves the directory list unchanged (idempotent create), and
leaves every file outside the seven icon paths exactly as it was. -/
theorem claim_C7 (fs0 : FS) (hdir : icon_dir ∈ fs0.dirs) :
    ∃ fs', run okEnv fs0 = Except.ok fs' ∧ fs'.dirs = fs0.dirs ∧
      ∀ p, p ∉ sizes.map iconPath → fs'.lookup p = fs0.lookup p := by
  refine ⟨_, run_okEnv fs0, ?_, ?_⟩
  · rw [FS.print_dirs, applyAll_dirs]
    simp [FS.mkdirs, hdir]
  · intro p hp
    rw [FS.lookup_print, lookup_applyAll_not_mem sizes _ p hp, FS.lookup_mkdirs]

/-- Witness for C7: a world holding only the (already created) output
directory. -/
theorem claim_C7_w :
    icon_dir ∈ (⟨[icon_dir], [], [], []⟩ : FS).dirs ∧
    ∃ fs', run okEnv ⟨[icon_dir], [], [], []⟩ = Except.ok fs' ∧
      fs'.dirs = (⟨[icon_dir], [], [], []⟩ : FS).dirs ∧
      ∀ p, p ∉ sizes.map iconPath →
        fs'.lookup p = FS.lookup ⟨[icon_dir], [], [], []⟩ p :=
  ⟨by simp, claim_C7 _ (by simp)⟩

/-- Claim C8: a fault-free run appends exactly one `Created <path>` line per
configured size followed by the single completion line; and when any
filesystem operation fails, the completion line never appears on the console
(it was not there initially and the aborted run does not print it). -/
theorem claim_C8 :
    (∀ fs0 : FS, ∃ fs', run okEnv fs0 = Except.ok fs' ∧
      fs'.console = fs0.console ++ (sizes.map createdLine ++ [doneLine])) ∧
    (∀ (env : Env) (fs0 fsE : FS), run env fs0 = Except.error fsE →
      doneLine ∉ fs0.console → doneLine ∉ fsE.console) := by
  constructor
  · intro fs0
    refine ⟨_, run_okEnv fs0, ?_⟩
    rw [FS.print_console, applyAll_console, FS.mkdirs_console, List.append_assoc]
  · intro env fs0 fsE herr hnot
    rw [run] at herr
    by_cases hm : env.mkdirFails = true
    · rw [if_pos hm] at herr
      injection herr with herr
      rw [herr] at hnot
      exact hnot
    · rw [if_neg hm] at herr
      rcases runFrom_error_inv env sizes _ _ herr with ⟨pre, rfl⟩
      rw [applyAll_console, FS.mkdirs_console]
      intro hmem
      rcases List.mem_append.mp hmem with h | h
      · exact hnot h
      · rcases List.mem_map.mp h with ⟨s, _, hcd⟩
        exact createdLine_ne_doneLine s hcd

/-- Witness for C8: the success part at the empty world, and the failure part
for an environment whose directory creation fails. -/
theorem claim_C8_w :
    (∃ fs', run okEnv emptyFS = Except.ok fs' ∧
      fs'.console = emptyFS.console ++ (sizes.map createdLine ++ [doneLine])) ∧
    doneLine ∉ emptyFS.console :=
  ⟨claim_C8.1 emptyFS,
    claim_C8.2 ⟨true, fun _ => false⟩ emptyFS emptyFS rfl (by simp [emptyFS])⟩

/-- Claim C10: a fault-free run emits its events in this exact order: the
single directory creation first, then for each size in ascending order the
file write immediately followed by its progress line, and the completion line
last.  In particular the writes occur in ascending size order and the
directory is created exactly once, before the first write. -/
theorem claim_C10 (fs0 : FS) :
    ∃ fs', run okEnv fs0 = Except.ok fs' ∧
      fs'.trace = fs0.trace ++ [Event.mkdir icon_dir] ++ loopTrace sizes
        ++ [Event.print doneLine] ∧
      loopTrace sizes = [Event.write (iconPath 16), Event.print (createdLine 16),
        Event.write (iconPath 32), Event.print (createdLine 32),
        Event.write (iconPath 64), Event.print (createdLine 64),
        Event.write (iconPath 128), Event.print (createdLine 128),
        Event.write (iconPath 256), Event.print (createdLine 256),
        Event.write (iconPath 512), Event.print (createdLine 512),
        Event.write (iconPath 1024), Event.print (createdLine 1024)] := by
  refine ⟨_, run_okEnv fs0, ?_, rfl⟩
  rw [FS.print_trace, applyAll_trace, FS.mkdirs_trace]

end MicOn
